import Mathlib

/-!
Shallow embedding of `RemoteBundle.create` from `src/pkg/bundler/remotebundle.go`
of the uds-cli repository.

The function orchestrates external collaborators (ORAS registry clients, the
package pusher, YAML marshalling, index fetch).  We embed it as a pure function
over an explicit environment `Env` supplying the result of every collaborator
call, and we record the sequence of performed registry operations in a trace
(`List RegOp`).  Operations that perform a durable registry action are recorded
only when the underlying call succeeds; the reference-resolution invocation is
recorded with the argument it receives.  Code of the repository that is not part
of the provided sources (the `utils` and `config` packages) is modelled from the
specification, marked by doc comments.
-/

/-- OCI platform: architecture and operating system (collaborator type
`ocispec.Platform`). -/
structure Platform where
  architecture : String
  os : String
deriving DecidableEq, Repr

/-- OCI content descriptor (collaborator type `ocispec.Descriptor`): media type,
digest, size, optional annotations, optional platform (used in index entries). -/
structure Descriptor where
  mediaType : String
  digest : String
  size : Int
  annots : List (String × String)
  platform : Option Platform
deriving DecidableEq, Repr

/-- OCI image manifest (collaborator type `ocispec.Manifest`): schema version,
config descriptor, ordered layer list, annotations. -/
structure Manifest where
  schemaVersion : Nat
  config : Descriptor
  layers : List Descriptor
  annots : List (String × String)
deriving DecidableEq, Repr

/-- Bundle metadata (`types.UDSMetadata`): only the fields the assembler reads. -/
structure UDSMetadata where
  name : String
  version : String
  architecture : String
deriving DecidableEq, Repr

/-- Bundle build provenance (`types.UDSBuildData`), carried opaquely to the
config-blob push. -/
structure UDSBuildData where
  user : String
  timestamp : String
deriving DecidableEq, Repr

/-- One package entry of a bundle (`types.Package`): repository path and ref. -/
structure Package where
  name : String
  repository : String
  ref : String
deriving DecidableEq, Repr

/-- A bundle (`types.UDSBundle`): metadata, build info, ordered package list. -/
structure UDSBundle where
  metadata : UDSMetadata
  build : UDSBuildData
  packages : List Package
deriving DecidableEq, Repr

/-- The receiver struct `RemoteBundle` of `remotebundle.go`. -/
structure RemoteBundle where
  bundle : UDSBundle
  tmpDstDir : String
  output : String
deriving DecidableEq, Repr

/-- The OCI URL scheme string used by the repository. -/
def ociScheme : String := "oci://"

/-- Collaborator constant `oci.MultiOS` of the zarf library: the OS marker used
for multi-arch bundle platforms. -/
def MultiOS : String := "multi"

/-- Collaborator constant `ocispec.AnnotationTitle`: the OCI title annotation key. -/
def titleAnnot : String := "org.opencontainers.image.title"

/-- Modelled from the spec: `config.BundleYAML`, the conventional bundle-metadata
filename used as the title annotation of the metadata layer (the `config`
package is not part of the provided sources). -/
def BundleYAML : String := "uds-bundle.yaml"

/-- Modelled from the spec: `config.BundleYAMLSignature`, the conventional
signature filename used as the title annotation of the signature layer (the
`config` package is not part of the provided sources). -/
def BundleYAMLSignature : String := "uds-bundle.yaml.sig"

/-- Collaborator constant `oci.ZarfLayerMediaTypeBlob` of the zarf library. -/
def ZarfLayerMediaTypeBlob : String := "application/vnd.zarf.layer.v1.blob"

/-- Collaborator constant `ocispec.MediaTypeImageManifest`. -/
def MediaTypeImageManifest : String := "application/vnd.oci.image.manifest.v1+json"

/-- The error message of `create` when the bundle architecture is empty. -/
def ArchRequiredErr : String := "architecture is required for bundling"

/-- Whether a string carries the explicit OCI scheme. -/
def hasOCIScheme (s : String) : Bool :=
  decide (s.data.take ociScheme.data.length = ociScheme.data)

/-- Modelled from the spec: `utils.EnsureOCIPrefix` (the `utils` package is not
part of the provided sources) normalizes a destination prefix to an explicit
OCI-scheme address, prepending the scheme when absent. -/
def ensureOCIScheme (s : String) : String :=
  if hasOCIScheme s then s else ociScheme ++ s

/-- The source reference string `pkg.Repository:pkg.Ref` built in the package loop. -/
def pkgUrl (pkg : Package) : String := pkg.repository ++ ":" ++ pkg.ref

/-- A registry operation performed by `create`, recorded in order.  Push
operations carry the descriptor the collaborator returned. -/
inductive RegOp where
  | resolveRef (arg : String)
  | bindDst (ref : String) (platform : Platform)
  | bindSrc (url : String) (platform : Platform)
  | fetchRoot (url : String) (result : Manifest)
  | pushPkg (idx : Nat) (pkg : Package) (result : Descriptor)
  | pushBlob (data : List Nat) (mediaType : String) (result : Descriptor)
  | pushConfig (result : Descriptor)
  | getIndex (ref : String)
  | pushManifest (m : Manifest) (result : Descriptor)
  | pushIndex (entries : List Descriptor)
deriving DecidableEq, Repr

/-- The environment of collaborator results consumed by `create`: the globally
configured architecture (`config.GetArch`), reference resolution
(`referenceFromMetadata`), client binding (`oci.NewOrasRemote`), the repository
reference view (`Repo().Reference`), root-manifest fetch, the package pusher
(`pusher.Push`), YAML marshalling, blob push (`PushLayer`), the config-blob push
(`pushManifestConfigFromMetadata`), index fetch (`utils.GetIndex`), manifest
push (`utils.ToOCIRemote`), index push, and the registry-UI annotation map
(`manifestAnnotationsFromMetadata`). -/
structure Env where
  cfgArch : String
  refFromMetadata : String → UDSMetadata → Except String String
  newOrasRemote : String → Platform → Except String Unit
  repoRef : String → String
  fetchRoot : String → Except String Manifest
  pushPkg : Nat → Package → Manifest → Except String Descriptor
  marshalBundle : UDSBundle → Except String (List Nat)
  pushLayer : List Nat → String → Except String Descriptor
  pushManifestConfig : UDSMetadata → UDSBuildData → Except String Descriptor
  getIndex : String → Except String (Option (List Descriptor))
  pushManifest : Manifest → String → Except String Descriptor
  pushIndex : List Descriptor → Except String Unit
  manifestAnnots : UDSMetadata → List (String × String)

/-- The platform `create` builds once and binds to every registry client:
`{Architecture: config.GetArch(), OS: oci.MultiOS}`. -/
def mkPlatform (env : Env) : Platform := ⟨env.cfgArch, MultiOS⟩

/-- Replace a descriptor's annotations with the single OCI title annotation, as
`create` does after pushing the metadata and signature blobs. -/
def withTitle (d : Descriptor) (title : String) : Descriptor :=
  { d with annots := [(titleAnnot, title)] }

/-- Whether an index entry's platform matches the given architecture. -/
def archMatches (arch : String) (d : Descriptor) : Bool :=
  match d.platform with
  | some p => decide (p.architecture = arch)
  | none => false

/-- Stamp the new root-manifest descriptor with the bundle platform before it
enters the index. -/
def stampPlatform (d : Descriptor) (arch : String) : Descriptor :=
  { d with platform := some ⟨arch, MultiOS⟩ }

/-- Modelled from the spec: `utils.UpdateIndex` (the `utils` package is not part
of the provided sources).  Per the spec, the entry whose platform matches the
current bundle's architecture is replaced by the new root-manifest descriptor;
if none matches (or the index was absent) the entry is appended; all other
entries are preserved unchanged.  The spec keys the index by the bundle's own
architecture (its end-to-end scenario maps the bundle architecture to the new
entry). -/
def updateIndexEntries (old : Option (List Descriptor)) (arch : String)
    (newDesc : Descriptor) : List Descriptor :=
  let stamped := stampPlatform newDesc arch
  match old with
  | none => [stamped]
  | some entries =>
    if entries.any (archMatches arch) then
      entries.map (fun d => if archMatches arch d then stamped else d)
    else entries ++ [stamped]

/-- The root manifest assembled by `create` just before the final push:
schemaVersion 2, the pushed config descriptor, the accumulated layers, and the
registry-UI annotations derived from the bundle metadata. -/
def mkRootManifest (env : Env) (md : UDSMetadata) (pkgDescs : List Descriptor)
    (metaDesc : Descriptor) (sigDescs : List Descriptor) (configDesc : Descriptor) :
    Manifest :=
  { schemaVersion := 2
    config := configDesc
    layers := pkgDescs ++ [metaDesc] ++ sigDescs
    annots := env.manifestAnnots md }

/-- The package loop of `create` (lines 72–93 of `remotebundle.go`): for each
package in order, bind a source client to `repository:ref`, fetch its root
manifest, push the package via the pusher, and collect the returned descriptor.
Returns the collected descriptors (or the first error) together with the trace
of performed operations. -/
def pushPackagesAux (env : Env) (platform : Platform) :
    List Package → Nat → Except String (List Descriptor) × List RegOp
  | [], _ => (.ok [], [])
  | pkg :: rest, i =>
    match env.newOrasRemote (pkgUrl pkg) platform with
    | .error e => (.error e, [])
    | .ok _ =>
      match env.fetchRoot (pkgUrl pkg) with
      | .error e => (.error e, [.bindSrc (pkgUrl pkg) platform])
      | .ok rootM =>
        match env.pushPkg i pkg rootM with
        | .error e =>
          (.error e, [.bindSrc (pkgUrl pkg) platform, .fetchRoot (pkgUrl pkg) rootM])
        | .ok d =>
          ((pushPackagesAux env platform rest (i + 1)).1.map (fun ds => d :: ds),
            .bindSrc (pkgUrl pkg) platform :: .fetchRoot (pkgUrl pkg) rootM ::
              .pushPkg i pkg d :: (pushPackagesAux env platform rest (i + 1)).2)

/-- The signature block of `create` (lines 110–122): when the supplied signature
byte sequence is non-empty, push it as a blob layer and title-annotate the
returned descriptor with the conventional signature filename; otherwise do
nothing. -/
def pushSignature (env : Env) (signature : List Nat) :
    Except String (List Descriptor × List RegOp) :=
  if signature.length > 0 then
    match env.pushLayer signature ZarfLayerMediaTypeBlob with
    | .error e => .error e
    | .ok d =>
      .ok ([withTitle d BundleYAMLSignature],
        [.pushBlob signature ZarfLayerMediaTypeBlob d])
  else .ok ([], [])

/-- The outcome of one call to `create`: the returned error or success, the
ordered trace of registry operations performed, and the receiver's final state. -/
structure CreateOut where
  res : Except String Unit
  trace : List RegOp
  receiver : RemoteBundle
deriving Repr

/-- Go's `if err != nil { return err }` idiom: on error, `create` returns the
error with the trace accumulated so far and the (already updated) receiver;
on success it continues with the value. -/
def onOk {α : Type} (x : Except String α) (tr : List RegOp) (rr : RemoteBundle)
    (k : α → CreateOut) : CreateOut :=
  match x with
  | .error e => ⟨.error e, tr, rr⟩
  | .ok a => k a

/-- The same early-return idiom for the package loop, whose result also carries
the trace of the operations the loop performed before failing. -/
def onOkTr {α : Type} (x : Except String α × List RegOp) (tr : List RegOp)
    (rr : RemoteBundle) (k : α → List RegOp → CreateOut) : CreateOut :=
  match x with
  | (.error e, t) => ⟨.error e, tr ++ t, rr⟩
  | (.ok a, t) => k a t

/-- Shallow embedding of `RemoteBundle.create` (lines 41–164 of
`remotebundle.go`): normalize the output prefix, resolve the destination
reference, bind the destination client to the configured platform, require a
non-empty bundle architecture, run the package loop, push the metadata blob
(title-annotated), the optional signature blob, and the config blob, fetch the
existing index, push the assembled root manifest, and upsert-push the index. -/
def create (env : Env) (r : RemoteBundle) (signature : List Nat) : CreateOut :=
  let out := ensureOCIScheme r.output
  let rr : RemoteBundle := { r with output := out }
  let tr0 : List RegOp := [.resolveRef out]
  onOk (env.refFromMetadata out r.bundle.metadata) tr0 rr fun ref =>
  onOk (env.newOrasRemote ref (mkPlatform env)) tr0 rr fun _ =>
  let tr1 := tr0 ++ [.bindDst ref (mkPlatform env)]
  if r.bundle.metadata.architecture = "" then
    ⟨.error ArchRequiredErr, tr1, rr⟩
  else
    onOkTr (pushPackagesAux env (mkPlatform env) r.bundle.packages 0) tr1 rr
      fun pkgDescs trL =>
    let tr2 := tr1 ++ trL
    onOk (env.marshalBundle r.bundle) tr2 rr fun bundleYamlBytes =>
    onOk (env.pushLayer bundleYamlBytes ZarfLayerMediaTypeBlob) tr2 rr fun d0 =>
    let tr3 := tr2 ++ [.pushBlob bundleYamlBytes ZarfLayerMediaTypeBlob d0]
    onOk (pushSignature env signature) tr3 rr fun sigp =>
    let tr4 := tr3 ++ sigp.2
    onOk (env.pushManifestConfig r.bundle.metadata r.bundle.build) tr4 rr
      fun configDesc =>
    let tr5 := tr4 ++ [.pushConfig configDesc]
    onOk (env.getIndex (env.repoRef ref)) tr5 rr fun idxOpt =>
    let tr6 := tr5 ++ [.getIndex (env.repoRef ref)]
    let rootManifest :=
      mkRootManifest env r.bundle.metadata pkgDescs (withTitle d0 BundleYAML)
        sigp.1 configDesc
    onOk (env.pushManifest rootManifest MediaTypeImageManifest) tr6 rr
      fun rootManifestDesc =>
    let tr7 := tr6 ++ [.pushManifest rootManifest rootManifestDesc]
    let newEntries :=
      updateIndexEntries idxOpt r.bundle.metadata.architecture rootManifestDesc
    onOk (env.pushIndex newEntries) tr7 rr fun _ =>
    ⟨.ok (), tr7 ++ [.pushIndex newEntries], rr⟩

/-- The trace of registry operations of a fully successful `create` run. -/
def okTrace (env : Env) (r : RemoteBundle) (ref : String) (trL : List RegOp)
    (bytes : List Nat) (d0 : Descriptor) (sigTr : List RegOp) (configDesc : Descriptor)
    (m : Manifest) (rootDesc : Descriptor) (es : List Descriptor) : List RegOp :=
  [RegOp.resolveRef (ensureOCIScheme r.output), .bindDst ref (mkPlatform env)] ++ trL ++
    [.pushBlob bytes ZarfLayerMediaTypeBlob d0] ++ sigTr ++ [.pushConfig configDesc] ++
    [.getIndex (env.repoRef ref)] ++ [.pushManifest m rootDesc] ++ [.pushIndex es]

/-! Concrete test fixtures used to exercise the embedding on closed inputs. -/

/-- A blob-typed descriptor with a given digest, for test environments. -/
def testDesc (s : String) : Descriptor :=
  ⟨ZarfLayerMediaTypeBlob, s, 1, [], none⟩

/-- Test bundle metadata. -/
def md0 : UDSMetadata := ⟨"core", "0.1.0", "amd64"⟩

/-- Test build info. -/
def bld0 : UDSBuildData := ⟨"dev", "2024-01-01"⟩

/-- First test package. -/
def pkgA : Package := ⟨"p1", "registry.example/p1", "1.0.0"⟩

/-- Second test package. -/
def pkgB : Package := ⟨"p2", "registry.example/p2", "2.0.0"⟩

/-- Test bundle with two packages. -/
def bundle0 : UDSBundle := ⟨md0, bld0, [pkgA, pkgB]⟩

/-- Test receiver whose output prefix has no OCI scheme yet. -/
def r0 : RemoteBundle := ⟨bundle0, "/tmp/dst", "localhost:888/repo"⟩

/-- A non-empty test signature. -/
def sig0 : List Nat := [7, 7, 7]

/-- Test environment in which every collaborator call succeeds. -/
def env0 : Env where
  cfgArch := "amd64"
  refFromMetadata := fun pre md => .ok (pre ++ "/" ++ md.name)
  newOrasRemote := fun _ _ => .ok ()
  repoRef := fun ref => ref
  fetchRoot := fun url => .ok ⟨2, testDesc ("cfg-" ++ url), [], []⟩
  pushPkg := fun i pkg _ => .ok (testDesc ("pkg-" ++ toString i ++ "-" ++ pkg.name))
  marshalBundle := fun _ => .ok [1, 2, 3]
  pushLayer := fun data mt => .ok ⟨mt, "blob-" ++ toString data.length, (data.length : Int), [], none⟩
  pushManifestConfig := fun md _ => .ok (testDesc ("config-" ++ md.name))
  getIndex := fun _ => .ok none
  pushManifest := fun _ _ => .ok (testDesc "rootmanifest")
  pushIndex := fun _ => .ok ()
  manifestAnnots := fun md => [(titleAnnot, md.name), ("version", md.version)]

/-- Test bundle with empty architecture. -/
def bundleNoArch : UDSBundle := ⟨⟨"core", "0.1.0", ""⟩, bld0, []⟩

/-- Test receiver whose bundle has an empty architecture. -/
def rNoArch : RemoteBundle := ⟨bundleNoArch, "/tmp/dst", "localhost:888/repo"⟩

/-- Test environment whose configured architecture differs from the test
bundle's own architecture. -/
def envArm : Env := { env0 with cfgArch := "arm64" }

/-- Test bundle with no packages, architecture `amd64`. -/
def bundleNoPkgs : UDSBundle := ⟨md0, bld0, []⟩

/-- Test receiver holding `bundleNoPkgs`. -/
def rNoPkgs : RemoteBundle := ⟨bundleNoPkgs, "/tmp/dst", "localhost:888/repo"⟩

/-- Test environment in which publishing the package at position 1 fails. -/
def envPkgFail : Env :=
  { env0 with pushPkg := fun i pkg _ =>
      if i = 1 then .error "pusher: boom"
      else .ok (testDesc ("pkg-" ++ toString i ++ "-" ++ pkg.name)) }

/-- Test index entry for a foreign platform, used to exercise the index upsert. -/
def entryArm : Descriptor :=
  ⟨MediaTypeImageManifest, "old-arm", 5, [], some ⟨"arm64", MultiOS⟩⟩

/-- Test index entry for the `amd64` platform, used to exercise the index upsert. -/
def entryAmd : Descriptor :=
  ⟨MediaTypeImageManifest, "old-amd", 5, [], some ⟨"amd64", MultiOS⟩⟩

/-- Shape invariant of recorded operations: the reference-resolution argument is
the normalized output prefix, and every client bind uses the configured
platform. -/
def opShape (env : Env) (r : RemoteBundle) : RegOp → Prop
  | .resolveRef a => a = ensureOCIScheme r.output
  | .bindDst _ p => p = mkPlatform env
  | .bindSrc _ p => p = mkPlatform env
  | _ => True

/-- The content-identifying part of a descriptor: media type, digest, size
(annotations are registry-UI bookkeeping added after the push). -/
def descCore (d : Descriptor) : String × String × Int :=
  (d.mediaType, d.digest, d.size)

/-- Whether an operation is a successful push whose returned descriptor has the
same content-identifying core as `d`. -/
def opPushes (op : RegOp) (d : Descriptor) : Prop :=
  match op with
  | .pushPkg _ _ d2 => descCore d2 = descCore d
  | .pushBlob _ _ d2 => descCore d2 = descCore d
  | .pushConfig d2 => descCore d2 = descCore d
  | _ => False

/-! Reduction lemmas for the early-return combinators. -/

/-- Reduction of `onOk` on a success value. -/
theorem onOk_ok {α : Type} (a : α) (tr : List RegOp) (rr : RemoteBundle)
    (k : α → CreateOut) : onOk (.ok a) tr rr k = k a := rfl

/-- Reduction of `onOk` on an error. -/
theorem onOk_error {α : Type} (e : String) (tr : List RegOp) (rr : RemoteBundle)
    (k : α → CreateOut) : onOk (.error e) tr rr k = ⟨.error e, tr, rr⟩ := rfl

/-- Reduction of `onOkTr` on a success value. -/
theorem onOkTr_ok {α : Type} (a : α) (t tr : List RegOp) (rr : RemoteBundle)
    (k : α → List RegOp → CreateOut) : onOkTr (.ok a, t) tr rr k = k a t := rfl

/-- Reduction of `onOkTr` on an error. -/
theorem onOkTr_error {α : Type} (e : String) (t tr : List RegOp) (rr : RemoteBundle)
    (k : α → List RegOp → CreateOut) :
    onOkTr (.error e, t) tr rr k = ⟨.error e, tr ++ t, rr⟩ := rfl

/-- The normalized output prefix always carries the OCI scheme. -/
theorem hasOCIScheme_ensureOCIScheme (s : String) :
    hasOCIScheme (ensureOCIScheme s) = true := by
  unfold ensureOCIScheme
  by_cases h : hasOCIScheme s = true
  · simp [h]
  · simp only [h, Bool.false_eq_true, if_false, ite_false]
    unfold hasOCIScheme
    rw [String.data_append]
    simp [List.take_left]

/-! The receiver after `create`: the output field is normalized by the first
statement and nothing else is written, in every branch. -/

/-- The receiver returned through `onOk` is always the updated receiver. -/
theorem onOk_receiver {α : Type} (x : Except String α) (tr : List RegOp)
    (rr : RemoteBundle) (k : α → CreateOut) (h : ∀ a, (k a).receiver = rr) :
    (onOk x tr rr k).receiver = rr := by
  cases x with
  | error e => rfl
  | ok a => exact h a

/-- The receiver returned through `onOkTr` is always the updated receiver. -/
theorem onOkTr_receiver {α : Type} (x : Except String α × List RegOp)
    (tr : List RegOp) (rr : RemoteBundle) (k : α → List RegOp → CreateOut)
    (h : ∀ a t, (k a t).receiver = rr) : (onOkTr x tr rr k).receiver = rr := by
  rcases x with ⟨res, t⟩
  cases res with
  | error e => rfl
  | ok a => exact h a t

/-- In every branch of `create`, the returned receiver is the input receiver
with its output field overwritten by the normalized prefix. -/
theorem create_receiver_eq (env : Env) (r : RemoteBundle) (signature : List Nat) :
    (create env r signature).receiver = { r with output := ensureOCIScheme r.output } := by
  unfold create
  apply onOk_receiver
  intro ref
  apply onOk_receiver
  intro u
  split
  · rfl
  · apply onOkTr_receiver
    intro pkgDescs trL
    apply onOk_receiver
    intro bytes
    apply onOk_receiver
    intro d0
    apply onOk_receiver
    intro sigp
    apply onOk_receiver
    intro configDesc
    apply onOk_receiver
    intro idxOpt
    apply onOk_receiver
    intro rootDesc
    apply onOk_receiver
    intro u2
    rfl

/-! Lemmas about the package loop. -/

/-- A successful package loop returns one descriptor per package, in
declaration order, each recorded by a push event at its package's position. -/
theorem pushPackagesAux_ok (env : Env) (platform : Platform) :
    ∀ (pkgs : List Package) (i : Nat) (ds : List Descriptor) (tr : List RegOp),
      pushPackagesAux env platform pkgs i = (.ok ds, tr) →
      ds.length = pkgs.length ∧
      (∀ j pk, pkgs[j]? = some pk →
        ∃ d, ds[j]? = some d ∧ RegOp.pushPkg (i + j) pk d ∈ tr) ∧
      (∀ d ∈ ds, ∃ j pk, RegOp.pushPkg j pk d ∈ tr)
  | [], i, ds, tr, h => by
    simp only [pushPackagesAux, Prod.mk.injEq, Except.ok.injEq] at h
    obtain ⟨h1, h2⟩ := h
    subst h1
    subst h2
    refine ⟨rfl, ?_, ?_⟩
    · intro j pk hpk
      simp at hpk
    · intro d hd
      simp at hd
  | pkg :: rest, i, ds, tr, h => by
    rw [pushPackagesAux] at h
    split at h
    · simp at h
    · split at h
      · simp at h
      · split at h
        · simp at h
        · rename_i rootM hroot d hpush
          rcases hnext : pushPackagesAux env platform rest (i + 1) with ⟨res2, tr2⟩
          rw [hnext] at h
          cases res2 with
          | error e => simp [Except.map] at h
          | ok ds2 =>
            simp only [Except.map, Prod.mk.injEq, Except.ok.injEq] at h
            obtain ⟨hds, htr⟩ := h
            subst hds
            subst htr
            obtain ⟨ihlen, ihidx, ihmem⟩ :=
              pushPackagesAux_ok env platform rest (i + 1) ds2 tr2 hnext
            refine ⟨by simp [ihlen], ?_, ?_⟩
            · intro j pk hpk
              cases j with
              | zero =>
                simp only [List.getElem?_cons_zero, Option.some.injEq] at hpk
                subst hpk
                exact ⟨d, by simp, by simp⟩
              | succ j =>
                simp only [List.getElem?_cons_succ] at hpk
                obtain ⟨d2, hd2, hmem⟩ := ihidx j pk hpk
                refine ⟨d2, by simpa using hd2, ?_⟩
                have : i + 1 + j = i + (j + 1) := by omega
                rw [this] at hmem
                simp [hmem]
            · intro d2 hd2
              rcases List.mem_cons.mp hd2 with h1 | h1
              · subst h1
                exact ⟨i, pkg, by simp⟩
              · obtain ⟨j, pk, hmem⟩ := ihmem d2 h1
                exact ⟨j, pk, by simp [hmem]⟩

/-- Every operation the package loop records is a source bind (to the loop's
platform), a root-manifest fetch, or a package push. -/
theorem pushPackagesAux_ops (env : Env) (platform : Platform) :
    ∀ (pkgs : List Package) (i : Nat) (op : RegOp),
      op ∈ (pushPackagesAux env platform pkgs i).2 →
      (∃ u, op = .bindSrc u platform) ∨ (∃ u m, op = .fetchRoot u m) ∨
        (∃ j pk d, op = .pushPkg j pk d)
  | [], i, op, hop => by
    simp [pushPackagesAux] at hop
  | pkg :: rest, i, op, hop => by
    rw [pushPackagesAux] at hop
    split at hop
    · simp at hop
    · split at hop
      · simp only [List.mem_singleton] at hop
        subst hop
        exact Or.inl ⟨pkgUrl pkg, rfl⟩
      · split at hop
        · rcases List.mem_cons.mp hop with h1 | h1
          · subst h1
            exact Or.inl ⟨pkgUrl pkg, rfl⟩
          · simp only [List.mem_singleton] at h1
            subst h1
            exact Or.inr (Or.inl ⟨_, _, rfl⟩)
        · rcases List.mem_cons.mp hop with h1 | h1
          · subst h1
            exact Or.inl ⟨pkgUrl pkg, rfl⟩
          · rcases List.mem_cons.mp h1 with h2 | h2
            · subst h2
              exact Or.inr (Or.inl ⟨_, _, rfl⟩)
            · rcases List.mem_cons.mp h2 with h3 | h3
              · subst h3
                exact Or.inr (Or.inr ⟨_, _, _, rfl⟩)
              · exact pushPackagesAux_ops env platform rest (i + 1) op h3

/-- A failing package loop stops at some package `k`: no package was pushed at
or beyond position `k`, and only packages up to and including `k` were bound or
fetched. -/
theorem pushPackagesAux_error (env : Env) (platform : Platform) :
    ∀ (pkgs : List Package) (i : Nat) (e : String) (tr : List RegOp),
      pushPackagesAux env platform pkgs i = (.error e, tr) →
      ∃ k, k < pkgs.length ∧
        (∀ j pk d, RegOp.pushPkg j pk d ∈ tr → i ≤ j ∧ j < i + k) ∧
        (∀ u p, RegOp.bindSrc u p ∈ tr → u ∈ (pkgs.take (k + 1)).map pkgUrl) ∧
        (∀ u m, RegOp.fetchRoot u m ∈ tr → u ∈ (pkgs.take (k + 1)).map pkgUrl)
  | [], i, e, tr, h => by
    simp [pushPackagesAux] at h
  | pkg :: rest, i, e, tr, h => by
    rw [pushPackagesAux] at h
    split at h
    · simp only [Prod.mk.injEq, Except.error.injEq] at h
      obtain ⟨he, htr⟩ := h
      subst htr
      refine ⟨0, by simp, ?_, ?_, ?_⟩ <;> intros <;> simp_all
    · split at h
      · simp only [Prod.mk.injEq, Except.error.injEq] at h
        obtain ⟨he, htr⟩ := h
        subst htr
        refine ⟨0, by simp, ?_, ?_, ?_⟩
        · intro j pk d hmem
          simp at hmem
        · intro u p hmem
          simp only [List.mem_singleton, RegOp.bindSrc.injEq] at hmem
          simp [hmem.1]
        · intro u m hmem
          simp at hmem
      · split at h
        · simp only [Prod.mk.injEq, Except.error.injEq] at h
          obtain ⟨he, htr⟩ := h
          subst htr
          refine ⟨0, by simp, ?_, ?_, ?_⟩
          · intro j pk d hmem
            simp at hmem
          · intro u p hmem
            rcases List.mem_cons.mp hmem with h1 | h1
            · simp only [RegOp.bindSrc.injEq] at h1
              simp [h1.1]
            · simp at h1
          · intro u m hmem
            rcases List.mem_cons.mp hmem with h1 | h1
            · simp at h1
            · simp only [List.mem_singleton, RegOp.fetchRoot.injEq] at h1
              simp [h1.1]
        · rcases hnext : pushPackagesAux env platform rest (i + 1) with ⟨res2, tr2⟩
          rw [hnext] at h
          cases res2 with
          | ok ds2 => simp [Except.map] at h
          | error e2 =>
            simp only [Except.map, Prod.mk.injEq, Except.error.injEq] at h
            obtain ⟨he, htr⟩ := h
            subst htr
            obtain ⟨k, hk1, hk2, hk3, hk4⟩ :=
              pushPackagesAux_error env platform rest (i + 1) e2 tr2 hnext
            refine ⟨k + 1, by simpa using hk1, ?_, ?_, ?_⟩
            · intro j pk d hmem
              rcases List.mem_cons.mp hmem with h1 | h1
              · simp at h1
              · rcases List.mem_cons.mp h1 with h2 | h2
                · simp at h2
                · rcases List.mem_cons.mp h2 with h3 | h3
                  · simp only [RegOp.pushPkg.injEq] at h3
                    omega
                  · have := hk2 j pk d h3
                    omega
            · intro u p hmem
              rw [List.take_succ_cons, List.map_cons]
              rcases List.mem_cons.mp hmem with h1 | h1
              · simp only [RegOp.bindSrc.injEq] at h1
                simp [h1.1]
              · rcases List.mem_cons.mp h1 with h2 | h2
                · simp at h2
                · rcases List.mem_cons.mp h2 with h3 | h3
                  · simp at h3
                  · exact List.mem_cons_of_mem _ (hk3 u p h3)
            · intro u m hmem
              rw [List.take_succ_cons, List.map_cons]
              rcases List.mem_cons.mp hmem with h1 | h1
              · simp at h1
              · rcases List.mem_cons.mp h1 with h2 | h2
                · simp only [RegOp.fetchRoot.injEq] at h2
                  simp [h2.1]
                · rcases List.mem_cons.mp h2 with h3 | h3
                  · simp at h3
                  · exact List.mem_cons_of_mem _ (hk4 u m h3)

/-! Lemmas about the signature block. -/

/-- A successful signature block: nothing happens for an empty signature; a
non-empty signature is pushed as one blob layer whose descriptor is
title-annotated with the conventional signature filename. -/
theorem pushSignature_ok (env : Env) (signature : List Nat)
    (sigDescs : List Descriptor) (sigTr : List RegOp)
    (h : pushSignature env signature = .ok (sigDescs, sigTr)) :
    (signature.length = 0 → sigDescs = [] ∧ sigTr = []) ∧
    (signature.length > 0 →
      ∃ d, env.pushLayer signature ZarfLayerMediaTypeBlob = .ok d ∧
        sigDescs = [withTitle d BundleYAMLSignature] ∧
        sigTr = [.pushBlob signature ZarfLayerMediaTypeBlob d]) := by
  unfold pushSignature at h
  split at h
  · split at h
    · simp at h
    · simp only [Except.ok.injEq, Prod.mk.injEq] at h
      obtain ⟨h1, h2⟩ := h
      subst h1
      subst h2
      constructor
      · intro h0
        omega
      · intro hpos
        exact ⟨_, by assumption, rfl, rfl⟩
  · simp only [Except.ok.injEq, Prod.mk.injEq] at h
    obtain ⟨h1, h2⟩ := h
    subst h1
    subst h2
    constructor
    · intro h0
      exact ⟨rfl, rfl⟩
    · intro hpos
      omega

/-- Every operation the signature block records is a blob push. -/
theorem pushSignature_ops (env : Env) (signature : List Nat)
    (p : List Descriptor × List RegOp) (h : pushSignature env signature = .ok p) :
    ∀ op ∈ p.2, ∃ data mt d, op = RegOp.pushBlob data mt d := by
  unfold pushSignature at h
  split at h
  · split at h
    · simp at h
    · simp only [Except.ok.injEq] at h
      subst h
      intro op hop
      simp only [List.mem_singleton] at hop
      subst hop
      exact ⟨_, _, _, rfl⟩
  · simp only [Except.ok.injEq] at h
    subst h
    intro op hop
    simp at hop

/-! Characterization of a fully successful `create` run. -/

/-- When every collaborator call succeeds, `create` returns success with the
explicit operation trace `okTrace` and the normalized receiver. -/
theorem create_ok_shape (env : Env) (r : RemoteBundle) (signature : List Nat)
    (ref : String) (pkgDescs : List Descriptor) (trL : List RegOp) (bytes : List Nat)
    (d0 : Descriptor) (sigDescs : List Descriptor) (sigTr : List RegOp)
    (configDesc : Descriptor) (idxOpt : Option (List Descriptor)) (rootDesc : Descriptor)
    (h1 : env.refFromMetadata (ensureOCIScheme r.output) r.bundle.metadata = .ok ref)
    (h2 : env.newOrasRemote ref (mkPlatform env) = .ok ())
    (h3 : ¬ r.bundle.metadata.architecture = "")
    (h4 : pushPackagesAux env (mkPlatform env) r.bundle.packages 0 = (.ok pkgDescs, trL))
    (h5 : env.marshalBundle r.bundle = .ok bytes)
    (h6 : env.pushLayer bytes ZarfLayerMediaTypeBlob = .ok d0)
    (h7 : pushSignature env signature = .ok (sigDescs, sigTr))
    (h8 : env.pushManifestConfig r.bundle.metadata r.bundle.build = .ok configDesc)
    (h9 : env.getIndex (env.repoRef ref) = .ok idxOpt)
    (h10 : env.pushManifest
      (mkRootManifest env r.bundle.metadata pkgDescs (withTitle d0 BundleYAML)
        sigDescs configDesc) MediaTypeImageManifest = .ok rootDesc)
    (h11 : env.pushIndex
      (updateIndexEntries idxOpt r.bundle.metadata.architecture rootDesc) = .ok ()) :
    create env r signature =
      ⟨.ok (),
        okTrace env r ref trL bytes d0 sigTr configDesc
          (mkRootManifest env r.bundle.metadata pkgDescs (withTitle d0 BundleYAML)
            sigDescs configDesc)
          rootDesc (updateIndexEntries idxOpt r.bundle.metadata.architecture rootDesc),
        { r with output := ensureOCIScheme r.output }⟩ := by
  simp only [create, h1, onOk_ok, h2]
  rw [if_neg h3]
  simp only [h4, onOkTr_ok, h5, onOk_ok, h6, h7, h8, h9, h10, h11]
  simp [okTrace]

/-- A successful `create` run determines a successful result for every
collaborator step. -/
theorem create_ok_elim (env : Env) (r : RemoteBundle) (signature : List Nat)
    (h : (create env r signature).res = .ok ()) :
    ∃ ref pkgDescs trL bytes d0 sigDescs sigTr configDesc idxOpt rootDesc,
      env.refFromMetadata (ensureOCIScheme r.output) r.bundle.metadata = .ok ref ∧
      env.newOrasRemote ref (mkPlatform env) = .ok () ∧
      ¬ r.bundle.metadata.architecture = "" ∧
      pushPackagesAux env (mkPlatform env) r.bundle.packages 0 = (.ok pkgDescs, trL) ∧
      env.marshalBundle r.bundle = .ok bytes ∧
      env.pushLayer bytes ZarfLayerMediaTypeBlob = .ok d0 ∧
      pushSignature env signature = .ok (sigDescs, sigTr) ∧
      env.pushManifestConfig r.bundle.metadata r.bundle.build = .ok configDesc ∧
      env.getIndex (env.repoRef ref) = .ok idxOpt ∧
      env.pushManifest
        (mkRootManifest env r.bundle.metadata pkgDescs (withTitle d0 BundleYAML)
          sigDescs configDesc) MediaTypeImageManifest = .ok rootDesc ∧
      env.pushIndex
        (updateIndexEntries idxOpt r.bundle.metadata.architecture rootDesc) = .ok () := by
  cases h1 : env.refFromMetadata (ensureOCIScheme r.output) r.bundle.metadata with
  | error e =>
    simp only [create, h1, onOk_error] at h
    simp at h
  | ok ref =>
    cases h2 : env.newOrasRemote ref (mkPlatform env) with
    | error e =>
      simp only [create, h1, onOk_ok, h2, onOk_error] at h
      simp at h
    | ok u =>
      cases u
      by_cases h3 : r.bundle.metadata.architecture = ""
      · simp only [create, h1, onOk_ok, h2] at h
        rw [if_pos h3] at h
        simp at h
      · rcases h4 : pushPackagesAux env (mkPlatform env) r.bundle.packages 0 with
          ⟨res4, trL⟩
        cases res4 with
        | error e =>
          simp only [create, h1, onOk_ok, h2, if_neg h3, h4, onOkTr_error] at h
          simp at h
        | ok pkgDescs =>
          cases h5 : env.marshalBundle r.bundle with
          | error e =>
            simp only [create, h1, onOk_ok, h2, if_neg h3, h4, onOkTr_ok, h5,
              onOk_error] at h
            simp at h
          | ok bytes =>
            cases h6 : env.pushLayer bytes ZarfLayerMediaTypeBlob with
            | error e =>
              simp only [create, h1, onOk_ok, h2, if_neg h3, h4, onOkTr_ok, h5,
                h6, onOk_error] at h
              simp at h
            | ok d0 =>
              cases h7 : pushSignature env signature with
              | error e =>
                simp only [create, h1, onOk_ok, h2, if_neg h3, h4, onOkTr_ok, h5,
                  h6, h7, onOk_error] at h
                simp at h
              | ok sigp =>
                obtain ⟨sigDescs, sigTr⟩ := sigp
                cases h8 : env.pushManifestConfig r.bundle.metadata r.bundle.build with
                | error e =>
                  simp only [create, h1, onOk_ok, h2, if_neg h3, h4, onOkTr_ok, h5,
                    h6, h7, h8, onOk_error] at h
                  simp at h
                | ok configDesc =>
                  cases h9 : env.getIndex (env.repoRef ref) with
                  | error e =>
                    simp only [create, h1, onOk_ok, h2, if_neg h3, h4, onOkTr_ok,
                      h5, h6, h7, h8, h9, onOk_error] at h
                    simp at h
                  | ok idxOpt =>
                    cases h10 : env.pushManifest
                        (mkRootManifest env r.bundle.metadata pkgDescs
                          (withTitle d0 BundleYAML) sigDescs configDesc)
                        MediaTypeImageManifest with
                    | error e =>
                      simp only [create, h1, onOk_ok, h2, if_neg h3, h4, onOkTr_ok,
                        h5, h6, h7, h8, h9, h10, onOk_error] at h
                      simp at h
                    | ok rootDesc =>
                      cases h11 : env.pushIndex
                          (updateIndexEntries idxOpt r.bundle.metadata.architecture
                            rootDesc) with
                      | error e =>
                        simp only [create, h1, onOk_ok, h2, if_neg h3, h4, onOkTr_ok,
                          h5, h6, h7, h8, h9, h10, h11, onOk_error] at h
                        simp at h
                      | ok u2 =>
                        cases u2
                        exact ⟨ref, pkgDescs, trL, bytes, d0, sigDescs, sigTr,
                          configDesc, idxOpt, rootDesc, rfl, h2, h3, rfl, rfl, h6,
                          rfl, rfl, h9, h10, h11⟩

/-! Branch-independent facts about the trace of `create`. -/

/-- Operation predicates pass through `onOk` when they hold of the current trace
and of every continuation. -/
theorem onOk_ops {α : Type} (x : Except String α) (tr : List RegOp)
    (rr : RemoteBundle) (k : α → CreateOut) (P : RegOp → Prop)
    (h1 : ∀ op ∈ tr, P op) (h2 : ∀ a, x = .ok a → ∀ op ∈ (k a).trace, P op) :
    ∀ op ∈ (onOk x tr rr k).trace, P op := by
  cases x with
  | error e => exact h1
  | ok a => exact h2 a rfl

/-- Operation predicates pass through `onOkTr` when they hold of the current
trace, of the loop trace, and of every continuation. -/
theorem onOkTr_ops {α : Type} (x : Except String α × List RegOp) (tr : List RegOp)
    (rr : RemoteBundle) (k : α → List RegOp → CreateOut) (P : RegOp → Prop)
    (h1 : ∀ op ∈ tr, P op) (hx : ∀ op ∈ x.2, P op)
    (h2 : ∀ a t, x = (.ok a, t) → (∀ op ∈ t, P op) → ∀ op ∈ (k a t).trace, P op) :
    ∀ op ∈ (onOkTr x tr rr k).trace, P op := by
  rcases x with ⟨res, t⟩
  cases res with
  | error e =>
    intro op hop
    rcases List.mem_append.mp hop with h | h
    · exact h1 op h
    · exact hx op h
  | ok a => exact h2 a t rfl hx

/-- Appending preserves pointwise operation predicates. -/
theorem ops_append {P : RegOp → Prop} {t u : List RegOp} (h1 : ∀ op ∈ t, P op)
    (h2 : ∀ op ∈ u, P op) : ∀ op ∈ t ++ u, P op := by
  intro op hop
  rcases List.mem_append.mp hop with h | h
  · exact h1 op h
  · exact h2 op h

/-- A pointwise operation predicate for a one-element trace. -/
theorem ops_single (P : RegOp → Prop) (op0 : RegOp) (h : P op0) :
    ∀ op ∈ [op0], P op := by
  intro op hop
  simp only [List.mem_singleton] at hop
  subst hop
  exact h

/-- In every branch of `create`, every recorded operation satisfies `opShape`:
the resolution argument is the normalized prefix and every bind uses the
configured platform. -/
theorem create_trace_ops (env : Env) (r : RemoteBundle) (signature : List Nat) :
    ∀ op ∈ (create env r signature).trace, opShape env r op := by
  have h0 : ∀ op ∈ [RegOp.resolveRef (ensureOCIScheme r.output)], opShape env r op :=
    ops_single _ _ rfl
  have hloop : ∀ op ∈ (pushPackagesAux env (mkPlatform env) r.bundle.packages 0).2,
      opShape env r op := by
    intro op hop
    rcases pushPackagesAux_ops env (mkPlatform env) r.bundle.packages 0 op hop with
      ⟨u, h⟩ | ⟨u, m, h⟩ | ⟨j, pk, d, h⟩ <;> subst h
    · exact rfl
    · exact trivial
    · exact trivial
  unfold create
  apply onOk_ops _ _ _ _ _ h0
  intro ref href
  apply onOk_ops _ _ _ _ _ h0
  intro u hu
  have hbind : ∀ op ∈ [RegOp.resolveRef (ensureOCIScheme r.output)] ++
      [RegOp.bindDst ref (mkPlatform env)], opShape env r op :=
    ops_append h0 (ops_single _ _ rfl)
  split
  · exact hbind
  · apply onOkTr_ops _ _ _ _ _ hbind hloop
    intro pkgDescs trL heqL htrLops
    have h2 := ops_append hbind htrLops
    apply onOk_ops _ _ _ _ _ h2
    intro bytes hbytes
    apply onOk_ops _ _ _ _ _ h2
    intro d0 hd0
    have h3 := ops_append h2
      (ops_single (opShape env r) (RegOp.pushBlob bytes ZarfLayerMediaTypeBlob d0) trivial)
    apply onOk_ops _ _ _ _ _ h3
    intro sigp hsig
    have hsigops : ∀ op ∈ sigp.2, opShape env r op := by
      intro op hop
      obtain ⟨data, mt, d, heq⟩ := pushSignature_ops env signature sigp hsig op hop
      subst heq
      exact trivial
    have h4 := ops_append h3 hsigops
    apply onOk_ops _ _ _ _ _ h4
    intro configDesc hcfg
    have h5 := ops_append h4
      (ops_single (opShape env r) (RegOp.pushConfig configDesc) trivial)
    apply onOk_ops _ _ _ _ _ h5
    intro idxOpt hidx
    have h6 := ops_append h5
      (ops_single (opShape env r) (RegOp.getIndex (env.repoRef ref)) trivial)
    apply onOk_ops _ _ _ _ _ h6
    intro rootDesc hroot
    have h7 := ops_append h6
      (ops_single (opShape env r)
        (RegOp.pushManifest
          (mkRootManifest env r.bundle.metadata pkgDescs (withTitle d0 BundleYAML)
            sigp.1 configDesc) rootDesc) trivial)
    apply onOk_ops _ _ _ _ _ h7
    intro u2 hu2
    exact ops_append h7
      (ops_single (opShape env r)
        (RegOp.pushIndex
          (updateIndexEntries idxOpt r.bundle.metadata.architecture rootDesc)) trivial)

/-- The head of an appended trace is the head of its non-empty first part. -/
theorem head_append_of {h0 : RegOp} {t u : List RegOp} (h : t.head? = some h0) :
    (t ++ u).head? = some h0 := by
  cases t with
  | nil => simp at h
  | cons a t2 => simpa using h

/-- Head preservation through `onOk`. -/
theorem onOk_head {α : Type} (x : Except String α) (tr : List RegOp)
    (rr : RemoteBundle) (k : α → CreateOut) (h0 : RegOp)
    (h1 : tr.head? = some h0) (h2 : ∀ a, x = .ok a → (k a).trace.head? = some h0) :
    (onOk x tr rr k).trace.head? = some h0 := by
  cases x with
  | error e => exact h1
  | ok a => exact h2 a rfl

/-- Head preservation through `onOkTr`. -/
theorem onOkTr_head {α : Type} (x : Except String α × List RegOp) (tr : List RegOp)
    (rr : RemoteBundle) (k : α → List RegOp → CreateOut) (h0 : RegOp)
    (h1 : tr.head? = some h0)
    (h2 : ∀ a t, x = (.ok a, t) → (k a t).trace.head? = some h0) :
    (onOkTr x tr rr k).trace.head? = some h0 := by
  rcases x with ⟨res, t⟩
  cases res with
  | error e => exact head_append_of h1
  | ok a => exact h2 a t rfl

/-- In every branch of `create`, the first recorded operation is the
reference resolution, with the normalized output prefix as its argument. -/
theorem create_trace_head (env : Env) (r : RemoteBundle) (signature : List Nat) :
    (create env r signature).trace.head? =
      some (RegOp.resolveRef (ensureOCIScheme r.output)) := by
  unfold create
  refine onOk_head _ _ _ _ _ ?_ ?_
  · rfl
  intro ref href
  refine onOk_head _ _ _ _ _ ?_ ?_
  · rfl
  intro u hu
  split
  · rfl
  refine onOkTr_head _ _ _ _ _ ?_ ?_
  · rfl
  intro pkgDescs trL heqL
  refine onOk_head _ _ _ _ _ ?_ ?_
  · exact head_append_of rfl
  intro bytes hbytes
  refine onOk_head _ _ _ _ _ ?_ ?_
  · exact head_append_of rfl
  intro d0 hd0
  refine onOk_head _ _ _ _ _ ?_ ?_
  · exact head_append_of (head_append_of rfl)
  intro sigp hsig
  refine onOk_head _ _ _ _ _ ?_ ?_
  · exact head_append_of (head_append_of (head_append_of rfl))
  intro configDesc hcfg
  refine onOk_head _ _ _ _ _ ?_ ?_
  · exact head_append_of (head_append_of (head_append_of (head_append_of rfl)))
  intro idxOpt hidx
  refine onOk_head _ _ _ _ _ ?_ ?_
  · exact head_append_of (head_append_of (head_append_of (head_append_of
      (head_append_of rfl))))
  intro rootDesc hroot
  refine onOk_head _ _ _ _ _ ?_ ?_
  · exact head_append_of (head_append_of (head_append_of (head_append_of
      (head_append_of (head_append_of rfl)))))
  intro u2 hu2
  exact head_append_of (head_append_of (head_append_of (head_append_of
    (head_append_of (head_append_of (head_append_of rfl))))))

/-! Lemmas about the index upsert. -/

/-- The stamped new entry matches its own architecture. -/
theorem archMatches_stampPlatform (arch : String) (d : Descriptor) :
    archMatches arch (stampPlatform d arch) = true := by
  simp [archMatches, stampPlatform]

/-- Replacing the matching entries leaves the non-matching entries of the list
unchanged. -/
theorem filter_map_upsert (arch : String) (st : Descriptor)
    (hst : archMatches arch st = true) :
    ∀ entries : List Descriptor,
      (entries.map (fun e => if archMatches arch e then st else e)).filter
          (fun e => !archMatches arch e) =
        entries.filter (fun e => !archMatches arch e)
  | [] => rfl
  | e :: rest => by
    by_cases he : archMatches arch e = true
    · simp [List.filter_cons, he, hst, filter_map_upsert arch st hst rest]
    · simp only [Bool.not_eq_true] at he
      simp [List.filter_cons, he, filter_map_upsert arch st hst rest]

/-- Replacing the matching entries by a matching entry preserves the count of
matching entries. -/
theorem countP_map_upsert (arch : String) (st : Descriptor)
    (hst : archMatches arch st = true) :
    ∀ entries : List Descriptor,
      (entries.map (fun e => if archMatches arch e then st else e)).countP
          (archMatches arch) = entries.countP (archMatches arch)
  | [] => rfl
  | e :: rest => by
    by_cases he : archMatches arch e = true
    · simp [List.countP_cons, he, hst, countP_map_upsert arch st hst rest]
    · simp only [Bool.not_eq_true] at he
      simp [List.countP_cons, he, countP_map_upsert arch st hst rest]

/-- The upsert preserves every entry of a foreign platform, in order. -/
theorem updateIndexEntries_preserves (entries : List Descriptor) (arch : String)
    (d : Descriptor) :
    (updateIndexEntries (some entries) arch d).filter (fun e => !archMatches arch e) =
      entries.filter (fun e => !archMatches arch e) := by
  unfold updateIndexEntries
  dsimp only
  by_cases hmatch : entries.any (archMatches arch) = true
  · simp only [hmatch, if_true]
    exact filter_map_upsert arch _ (archMatches_stampPlatform arch d) entries
  · rw [if_neg hmatch, List.filter_append]
    simp [archMatches_stampPlatform arch d]

/-- After the upsert, the index holds exactly one entry for the bundle's
platform, provided it held at most one before. -/
theorem updateIndexEntries_count (entries : List Descriptor) (arch : String)
    (d : Descriptor) (h : entries.countP (archMatches arch) ≤ 1) :
    (updateIndexEntries (some entries) arch d).countP (archMatches arch) = 1 := by
  unfold updateIndexEntries
  dsimp only
  by_cases hmatch : entries.any (archMatches arch) = true
  · simp only [hmatch, if_true]
    rw [countP_map_upsert arch _ (archMatches_stampPlatform arch d) entries]
    have hpos : 0 < entries.countP (archMatches arch) := by
      rw [List.countP_pos_iff]
      exact List.any_eq_true.mp hmatch
    omega
  · rw [if_neg hmatch, List.countP_append]
    have hzero : entries.countP (archMatches arch) = 0 := by
      rw [List.countP_eq_zero]
      intro a ha hpa
      exact hmatch (List.any_eq_true.mpr ⟨a, ha, hpa⟩)
    simp [hzero, List.countP_cons, archMatches_stampPlatform arch d]

/-- The upserted index contains the stamped new root-manifest entry. -/
theorem updateIndexEntries_mem (entries : List Descriptor) (arch : String)
    (d : Descriptor) :
    stampPlatform d arch ∈ updateIndexEntries (some entries) arch d := by
  unfold updateIndexEntries
  by_cases hmatch : entries.any (archMatches arch) = true
  · simp only [hmatch, if_true]
    obtain ⟨e, he, hpe⟩ := List.any_eq_true.mp hmatch
    exact List.mem_map.mpr ⟨e, he, by simp [hpe]⟩
  · simp only [hmatch, if_false]
    simp

/-- When an entry for the platform already exists, the upsert replaces it and
never grows the index. -/
theorem updateIndexEntries_length (entries : List Descriptor) (arch : String)
    (d : Descriptor) (h : entries.any (archMatches arch) = true) :
    (updateIndexEntries (some entries) arch d).length = entries.length := by
  unfold updateIndexEntries
  simp [h]

/-- Membership in the successful trace, as an explicit disjunction. -/
theorem mem_okTrace_iff (env : Env) (r : RemoteBundle) (ref : String)
    (trL : List RegOp) (bytes : List Nat) (d0 : Descriptor) (sigTr : List RegOp)
    (configDesc : Descriptor) (m : Manifest) (rootDesc : Descriptor)
    (es : List Descriptor) (op : RegOp) :
    op ∈ okTrace env r ref trL bytes d0 sigTr configDesc m rootDesc es ↔
      op = RegOp.resolveRef (ensureOCIScheme r.output) ∨
      op = RegOp.bindDst ref (mkPlatform env) ∨
      op ∈ trL ∨
      op = RegOp.pushBlob bytes ZarfLayerMediaTypeBlob d0 ∨
      op ∈ sigTr ∨
      op = RegOp.pushConfig configDesc ∨
      op = RegOp.getIndex (env.repoRef ref) ∨
      op = RegOp.pushManifest m rootDesc ∨
      op = RegOp.pushIndex es := by
  simp [okTrace, List.mem_append, List.mem_cons, or_assoc]

/-- C10: `create` mutates its receiver exactly by overwriting the output field
with the OCI-scheme-normalized destination prefix; in every outcome the stored
output carries the explicit scheme, and the bundle and temporary-directory
fields are never written. -/
theorem c10_receiver_mutation (env : Env) (r : RemoteBundle) (signature : List Nat) :
    (create env r signature).receiver = { r with output := ensureOCIScheme r.output } ∧
    (create env r signature).receiver.bundle = r.bundle ∧
    (create env r signature).receiver.tmpDstDir = r.tmpDstDir ∧
    hasOCIScheme (create env r signature).receiver.output = true := by
  refine ⟨create_receiver_eq env r signature, ?_, ?_, ?_⟩ <;>
    rw [create_receiver_eq env r signature]
  exact hasOCIScheme_ensureOCIScheme r.output

/-- C8: the destination prefix is normalized to an explicit OCI-scheme address
before reference resolution: the first recorded operation is the resolution,
its argument is the normalized prefix, and every resolution argument carries
the OCI scheme. -/
theorem c8_oci_scheme_normalization (env : Env) (r : RemoteBundle)
    (signature : List Nat) :
    (create env r signature).trace.head? =
      some (RegOp.resolveRef (ensureOCIScheme r.output)) ∧
    (∀ arg, RegOp.resolveRef arg ∈ (create env r signature).trace →
      arg = ensureOCIScheme r.output ∧ hasOCIScheme arg = true) ∧
    hasOCIScheme (ensureOCIScheme r.output) = true := by
  refine ⟨create_trace_head env r signature, ?_, hasOCIScheme_ensureOCIScheme r.output⟩
  intro arg hmem
  have hop := create_trace_ops env r signature _ hmem
  have harg : arg = ensureOCIScheme r.output := hop
  exact ⟨harg, by rw [harg]; exact hasOCIScheme_ensureOCIScheme r.output⟩

/-- Closed instance of C8 on the concrete test input. -/
theorem c8_oci_scheme_normalization_witness :
    (create env0 r0 sig0).trace.head? =
      some (RegOp.resolveRef (ensureOCIScheme r0.output)) ∧
    hasOCIScheme (ensureOCIScheme r0.output) = true :=
  ⟨(c8_oci_scheme_normalization env0 r0 sig0).1,
   (c8_oci_scheme_normalization env0 r0 sig0).2.2⟩

/-- C2 counterexample: on a bundle with empty architecture, `create` does bind
the destination registry client before returning the configuration error, so
the claim that no registry client is bound is false on the code. -/
theorem c2_counterexample :
    rNoArch.bundle.metadata.architecture = "" ∧
    (create env0 rNoArch []).res = .error ArchRequiredErr ∧
    RegOp.bindDst "oci://localhost:888/repo/core" (mkPlatform env0) ∈
      (create env0 rNoArch []).trace := by
  refine ⟨rfl, rfl, ?_⟩
  decide

/-- C2 (amended): for every bundle with empty architecture, if reference
resolution and the destination-client bind succeed, `create` returns the
configuration error having performed no fetch and no push: the only recorded
operations are the resolution and the destination bind. -/
theorem c2_arch_error_before_io (env : Env) (r : RemoteBundle) (signature : List Nat)
    (ref : String)
    (harch : r.bundle.metadata.architecture = "")
    (h1 : env.refFromMetadata (ensureOCIScheme r.output) r.bundle.metadata = .ok ref)
    (h2 : env.newOrasRemote ref (mkPlatform env) = .ok ()) :
    create env r signature =
      ⟨.error ArchRequiredErr,
        [RegOp.resolveRef (ensureOCIScheme r.output),
         RegOp.bindDst ref (mkPlatform env)],
        { r with output := ensureOCIScheme r.output }⟩ := by
  simp only [create, h1, onOk_ok, h2]
  rw [if_pos harch]
  rfl

/-- Closed instance of the amended C2 on the concrete test input. -/
theorem c2_arch_error_before_io_witness :
    rNoArch.bundle.metadata.architecture = "" ∧
    create env0 rNoArch [] =
      ⟨.error ArchRequiredErr,
        [RegOp.resolveRef (ensureOCIScheme rNoArch.output),
         RegOp.bindDst "oci://localhost:888/repo/core" (mkPlatform env0)],
        { rNoArch with output := ensureOCIScheme rNoArch.output }⟩ :=
  ⟨rfl, c2_arch_error_before_io env0 rNoArch [] "oci://localhost:888/repo/core" rfl rfl rfl⟩

/-- C3: if the package loop fails — source bind, root-manifest fetch, or package
publish at any position — `create` returns that error immediately: the trace
holds only the resolution, the destination bind, and the loop's own operations
(no metadata, signature, config, root-manifest, or index push, so the registry
index is untouched), no package at or beyond the failing position `k` is
pushed, and only packages up to `k` are bound or fetched. -/
theorem c3_loop_failure_aborts (env : Env) (r : RemoteBundle) (signature : List Nat)
    (ref : String) (e : String) (trL : List RegOp)
    (h1 : env.refFromMetadata (ensureOCIScheme r.output) r.bundle.metadata = .ok ref)
    (h2 : env.newOrasRemote ref (mkPlatform env) = .ok ())
    (h3 : ¬ r.bundle.metadata.architecture = "")
    (hL : pushPackagesAux env (mkPlatform env) r.bundle.packages 0 = (.error e, trL)) :
    create env r signature =
      ⟨.error e,
        [RegOp.resolveRef (ensureOCIScheme r.output),
         RegOp.bindDst ref (mkPlatform env)] ++ trL,
        { r with output := ensureOCIScheme r.output }⟩ ∧
    (∀ op ∈ trL,
      (∃ u p, op = RegOp.bindSrc u p) ∨ (∃ u m, op = RegOp.fetchRoot u m) ∨
        (∃ j pk d, op = RegOp.pushPkg j pk d)) ∧
    ∃ k, k < r.bundle.packages.length ∧
      (∀ j pk d, RegOp.pushPkg j pk d ∈ trL → j < k) ∧
      (∀ u p, RegOp.bindSrc u p ∈ trL →
        u ∈ (r.bundle.packages.take (k + 1)).map pkgUrl) ∧
      (∀ u m, RegOp.fetchRoot u m ∈ trL →
        u ∈ (r.bundle.packages.take (k + 1)).map pkgUrl) := by
  refine ⟨?_, ?_, ?_⟩
  · simp only [create, h1, onOk_ok, h2]
    rw [if_neg h3]
    simp only [hL, onOkTr_error]
    rfl
  · intro op hop
    have hmem : op ∈ (pushPackagesAux env (mkPlatform env) r.bundle.packages 0).2 := by
      rw [hL]
      exact hop
    rcases pushPackagesAux_ops env (mkPlatform env) r.bundle.packages 0 op hmem with
      ⟨u, heq⟩ | h2x | h3x
    · exact Or.inl ⟨u, mkPlatform env, heq⟩
    · exact Or.inr (Or.inl h2x)
    · exact Or.inr (Or.inr h3x)
  · obtain ⟨k, hk1, hk2, hk3, hk4⟩ :=
      pushPackagesAux_error env (mkPlatform env) r.bundle.packages 0 e trL hL
    refine ⟨k, hk1, ?_, hk3, hk4⟩
    intro j pk d hm
    have := hk2 j pk d hm
    omega

/-- Closed instance of C3 on the concrete test input: publishing package 1 of 2
fails. -/
theorem c3_loop_failure_aborts_witness :
    create envPkgFail r0 [] =
      ⟨.error "pusher: boom",
        [RegOp.resolveRef (ensureOCIScheme r0.output),
         RegOp.bindDst "oci://localhost:888/repo/core" (mkPlatform envPkgFail)] ++
          (pushPackagesAux envPkgFail (mkPlatform envPkgFail) r0.bundle.packages 0).2,
        { r0 with output := ensureOCIScheme r0.output }⟩ ∧
    (∀ op ∈ (pushPackagesAux envPkgFail (mkPlatform envPkgFail) r0.bundle.packages 0).2,
      (∃ u p, op = RegOp.bindSrc u p) ∨ (∃ u m, op = RegOp.fetchRoot u m) ∨
        (∃ j pk d, op = RegOp.pushPkg j pk d)) ∧
    ∃ k, k < r0.bundle.packages.length ∧
      (∀ j pk d, RegOp.pushPkg j pk d ∈
        (pushPackagesAux envPkgFail (mkPlatform envPkgFail) r0.bundle.packages 0).2 →
          j < k) ∧
      (∀ u p, RegOp.bindSrc u p ∈
        (pushPackagesAux envPkgFail (mkPlatform envPkgFail) r0.bundle.packages 0).2 →
          u ∈ (r0.bundle.packages.take (k + 1)).map pkgUrl) ∧
      (∀ u m, RegOp.fetchRoot u m ∈
        (pushPackagesAux envPkgFail (mkPlatform envPkgFail) r0.bundle.packages 0).2 →
          u ∈ (r0.bundle.packages.take (k + 1)).map pkgUrl) :=
  c3_loop_failure_aborts envPkgFail r0 [] "oci://localhost:888/repo/core"
    "pusher: boom"
    (pushPackagesAux envPkgFail (mkPlatform envPkgFail) r0.bundle.packages 0).2
    rfl rfl (by decide) rfl

/-- C9 counterexample: a successful run with configured architecture `arm64`
and bundle architecture `amd64` pushes an index entry keyed by the bundle's own
architecture, not the configured one, refuting the claim that the index key is
built from the configured architecture. -/
theorem c9_counterexample :
    envArm.cfgArch = "arm64" ∧
    rNoPkgs.bundle.metadata.architecture = "amd64" ∧
    (create envArm rNoPkgs []).res = .ok () ∧
    RegOp.pushIndex [stampPlatform (testDesc "rootmanifest") "amd64"] ∈
      (create envArm rNoPkgs []).trace ∧
    (stampPlatform (testDesc "rootmanifest") "amd64").platform =
      some ⟨"amd64", MultiOS⟩ ∧
    "amd64" ≠ envArm.cfgArch := by
  refine ⟨rfl, rfl, rfl, ?_, rfl, by decide⟩
  decide

/-- C9 (amended): every registry client bind uses the configured architecture
(`config.GetArch`) with the multi-OS marker, regardless of the bundle's own
architecture, which `create` itself only checks for non-emptiness; the index
entry of a successful run, however, is keyed by the bundle's
`Metadata.Architecture` through the spec-modelled `UpdateIndex`. -/
theorem c9_platform_usage (env : Env) (r : RemoteBundle) (signature : List Nat) :
    (mkPlatform env).architecture = env.cfgArch ∧
    (mkPlatform env).os = MultiOS ∧
    (∀ ref p, RegOp.bindDst ref p ∈ (create env r signature).trace →
      p = mkPlatform env) ∧
    (∀ u p, RegOp.bindSrc u p ∈ (create env r signature).trace →
      p = mkPlatform env) ∧
    ((create env r signature).res = .ok () →
      ∃ idxOpt rootDesc,
        RegOp.pushIndex
            (updateIndexEntries idxOpt r.bundle.metadata.architecture rootDesc) ∈
          (create env r signature).trace) := by
  refine ⟨rfl, rfl, ?_, ?_, ?_⟩
  · intro ref p hm
    exact create_trace_ops env r signature _ hm
  · intro u p hm
    exact create_trace_ops env r signature _ hm
  · intro h
    obtain ⟨ref, pkgDescs, trL, bytes, d0, sigDescs, sigTr, configDesc, idxOpt,
      rootDesc, h1, h2, h3, h4, h5, h6, h7, h8, h9, h10, h11⟩ :=
      create_ok_elim env r signature h
    refine ⟨idxOpt, rootDesc, ?_⟩
    rw [create_ok_shape env r signature ref pkgDescs trL bytes d0 sigDescs sigTr
      configDesc idxOpt rootDesc h1 h2 h3 h4 h5 h6 h7 h8 h9 h10 h11]
    exact (mem_okTrace_iff env r ref trL bytes d0 sigTr configDesc _ rootDesc _ _).mpr
      (Or.inr (Or.inr (Or.inr (Or.inr (Or.inr (Or.inr (Or.inr (Or.inr rfl))))))))

/-- Closed instance of the amended C9 on the concrete test input. -/
theorem c9_platform_usage_witness :
    (create envArm rNoPkgs []).res = .ok () ∧
    ∃ idxOpt rootDesc,
      RegOp.pushIndex
          (updateIndexEntries idxOpt rNoPkgs.bundle.metadata.architecture rootDesc) ∈
        (create envArm rNoPkgs []).trace :=
  ⟨rfl, (c9_platform_usage envArm rNoPkgs []).2.2.2.2 rfl⟩

/-- C1: in every successful run, the pushed root manifest's layer list is
exactly the package manifest descriptors in declaration order at positions
0..N-1, the bundle-metadata blob descriptor at position N, and, exactly when
the supplied signature is non-empty, the signature blob descriptor at position
N+1 — N+2 layers with a signature, N+1 without. -/
theorem c1_layer_order (env : Env) (r : RemoteBundle) (signature : List Nat)
    (h : (create env r signature).res = .ok ()) :
    ∃ m rootDesc pkgDescs metaDesc sigDescs,
      RegOp.pushManifest m rootDesc ∈ (create env r signature).trace ∧
      (∀ m2 d2, RegOp.pushManifest m2 d2 ∈ (create env r signature).trace →
        m2 = m) ∧
      m.layers = pkgDescs ++ [metaDesc] ++ sigDescs ∧
      pkgDescs.length = r.bundle.packages.length ∧
      (∀ j pk, r.bundle.packages[j]? = some pk →
        ∃ d, pkgDescs[j]? = some d ∧
          RegOp.pushPkg j pk d ∈ (create env r signature).trace) ∧
      (∃ bytes d0, env.marshalBundle r.bundle = .ok bytes ∧
        RegOp.pushBlob bytes ZarfLayerMediaTypeBlob d0 ∈
          (create env r signature).trace ∧
        metaDesc = withTitle d0 BundleYAML) ∧
      (signature.length = 0 → sigDescs = [] ∧
        m.layers.length = r.bundle.packages.length + 1) ∧
      (signature.length > 0 →
        (∃ dS, RegOp.pushBlob signature ZarfLayerMediaTypeBlob dS ∈
            (create env r signature).trace ∧
          sigDescs = [withTitle dS BundleYAMLSignature]) ∧
        m.layers.length = r.bundle.packages.length + 2) := by
  obtain ⟨ref, pkgDescs, trL, bytes, d0, sigDescs, sigTr, configDesc, idxOpt,
    rootDesc, h1, h2, h3, h4, h5, h6, h7, h8, h9, h10, h11⟩ :=
    create_ok_elim env r signature h
  have hshape := create_ok_shape env r signature ref pkgDescs trL bytes d0 sigDescs
    sigTr configDesc idxOpt rootDesc h1 h2 h3 h4 h5 h6 h7 h8 h9 h10 h11
  obtain ⟨hlen, hidx, hmem⟩ := pushPackagesAux_ok env (mkPlatform env)
    r.bundle.packages 0 pkgDescs trL h4
  obtain ⟨hsig0, hsigpos⟩ := pushSignature_ok env signature sigDescs sigTr h7
  rw [hshape]
  refine ⟨mkRootManifest env r.bundle.metadata pkgDescs (withTitle d0 BundleYAML)
    sigDescs configDesc, rootDesc, pkgDescs, withTitle d0 BundleYAML, sigDescs,
    ?_, ?_, rfl, hlen, ?_, ?_, ?_, ?_⟩
  · exact (mem_okTrace_iff env r ref trL bytes d0 sigTr configDesc _ rootDesc _ _).mpr
      (Or.inr (Or.inr (Or.inr (Or.inr (Or.inr (Or.inr (Or.inr (Or.inl rfl))))))))
  · intro m2 d2 hm
    rcases (mem_okTrace_iff env r ref trL bytes d0 sigTr configDesc _ rootDesc _
        _).mp hm with
      hx | hx | hx | hx | hx | hx | hx | hx | hx
    · simp at hx
    · simp at hx
    · exfalso
      have hmem2 : RegOp.pushManifest m2 d2 ∈
          (pushPackagesAux env (mkPlatform env) r.bundle.packages 0).2 := by
        rw [h4]
        exact hx
      rcases pushPackagesAux_ops env (mkPlatform env) r.bundle.packages 0 _ hmem2
        with ⟨u, heq⟩ | ⟨u, mm, heq⟩ | ⟨j, pk, d, heq⟩ <;> simp at heq
    · simp at hx
    · exfalso
      obtain ⟨data, mt, d, heq⟩ :=
        pushSignature_ops env signature (sigDescs, sigTr) h7 _ hx
      simp at heq
    · simp at hx
    · simp at hx
    · simp only [RegOp.pushManifest.injEq] at hx
      exact hx.1
    · simp at hx
  · intro j pk hpk
    obtain ⟨d, hd, hm⟩ := hidx j pk hpk
    simp only [Nat.zero_add] at hm
    exact ⟨d, hd,
      (mem_okTrace_iff env r ref trL bytes d0 sigTr configDesc _ rootDesc _ _).mpr
        (Or.inr (Or.inr (Or.inl hm)))⟩
  · exact ⟨bytes, d0, h5,
      (mem_okTrace_iff env r ref trL bytes d0 sigTr configDesc _ rootDesc _ _).mpr
        (Or.inr (Or.inr (Or.inr (Or.inl rfl)))), rfl⟩
  · intro h0
    obtain ⟨hsd, hst⟩ := hsig0 h0
    refine ⟨hsd, ?_⟩
    simp [mkRootManifest, hsd, hlen]
  · intro hpos
    obtain ⟨dS, hpushS, hsd, hst⟩ := hsigpos hpos
    refine ⟨⟨dS, ?_, hsd⟩, ?_⟩
    · refine (mem_okTrace_iff env r ref trL bytes d0 sigTr configDesc _ rootDesc _
        _).mpr (Or.inr (Or.inr (Or.inr (Or.inr (Or.inl ?_)))))
      rw [hst]
      exact List.mem_singleton_self _
    · simp [mkRootManifest, hsd, hlen]

/-- Closed instance of C1 on the concrete test input (two packages, non-empty
signature). -/
theorem c1_layer_order_witness :
    (create env0 r0 sig0).res = .ok () ∧
    ∃ m rootDesc pkgDescs metaDesc sigDescs,
      RegOp.pushManifest m rootDesc ∈ (create env0 r0 sig0).trace ∧
      (∀ m2 d2, RegOp.pushManifest m2 d2 ∈ (create env0 r0 sig0).trace →
        m2 = m) ∧
      m.layers = pkgDescs ++ [metaDesc] ++ sigDescs ∧
      pkgDescs.length = r0.bundle.packages.length ∧
      (∀ j pk, r0.bundle.packages[j]? = some pk →
        ∃ d, pkgDescs[j]? = some d ∧
          RegOp.pushPkg j pk d ∈ (create env0 r0 sig0).trace) ∧
      (∃ bytes d0, env0.marshalBundle r0.bundle = .ok bytes ∧
        RegOp.pushBlob bytes ZarfLayerMediaTypeBlob d0 ∈
          (create env0 r0 sig0).trace ∧
        metaDesc = withTitle d0 BundleYAML) ∧
      (sig0.length = 0 → sigDescs = [] ∧
        m.layers.length = r0.bundle.packages.length + 1) ∧
      (sig0.length > 0 →
        (∃ dS, RegOp.pushBlob sig0 ZarfLayerMediaTypeBlob dS ∈
            (create env0 r0 sig0).trace ∧
          sigDescs = [withTitle dS BundleYAMLSignature]) ∧
        m.layers.length = r0.bundle.packages.length + 2) :=
  ⟨rfl, c1_layer_order env0 r0 sig0 rfl⟩

/-- C5: in every successful run, the root manifest is pushed after pushes that
produced (up to annotation bookkeeping) every descriptor it references — its
config descriptor and every layer descriptor: the trace splits around the
manifest push, and each referenced descriptor core was returned by a push
occurring strictly before it. -/
theorem c5_push_before_manifest (env : Env) (r : RemoteBundle) (signature : List Nat)
    (h : (create env r signature).res = .ok ()) :
    ∃ pre m rootDesc post,
      (create env r signature).trace = pre ++ RegOp.pushManifest m rootDesc :: post ∧
      ∀ d ∈ m.config :: m.layers, ∃ op ∈ pre, opPushes op d := by
  obtain ⟨ref, pkgDescs, trL, bytes, d0, sigDescs, sigTr, configDesc, idxOpt,
    rootDesc, h1, h2, h3, h4, h5, h6, h7, h8, h9, h10, h11⟩ :=
    create_ok_elim env r signature h
  have hshape := create_ok_shape env r signature ref pkgDescs trL bytes d0 sigDescs
    sigTr configDesc idxOpt rootDesc h1 h2 h3 h4 h5 h6 h7 h8 h9 h10 h11
  obtain ⟨hlen, hidx, hmem⟩ := pushPackagesAux_ok env (mkPlatform env)
    r.bundle.packages 0 pkgDescs trL h4
  obtain ⟨hsig0, hsigpos⟩ := pushSignature_ok env signature sigDescs sigTr h7
  rw [hshape]
  refine ⟨[RegOp.resolveRef (ensureOCIScheme r.output),
      RegOp.bindDst ref (mkPlatform env)] ++ trL ++
      [RegOp.pushBlob bytes ZarfLayerMediaTypeBlob d0] ++ sigTr ++
      [RegOp.pushConfig configDesc] ++ [RegOp.getIndex (env.repoRef ref)],
    mkRootManifest env r.bundle.metadata pkgDescs (withTitle d0 BundleYAML)
      sigDescs configDesc,
    rootDesc,
    [RegOp.pushIndex (updateIndexEntries idxOpt r.bundle.metadata.architecture
      rootDesc)], ?_, ?_⟩
  · simp [okTrace, List.append_assoc]
  · intro d hd
    rcases List.mem_cons.mp hd with hdc | hdl
    · refine ⟨RegOp.pushConfig configDesc,
        List.mem_append_left _ (List.mem_append_right _ (List.mem_singleton_self _)),
        ?_⟩
      rw [hdc]
      exact rfl
    · simp only [mkRootManifest] at hdl
      rcases List.mem_append.mp hdl with hdl1 | hdsig
      · rcases List.mem_append.mp hdl1 with hdpkg | hdmeta
        · obtain ⟨j, pk, hmemL⟩ := hmem d hdpkg
          exact ⟨RegOp.pushPkg j pk d,
            List.mem_append_left _ (List.mem_append_left _ (List.mem_append_left _
              (List.mem_append_left _ (List.mem_append_right _ hmemL)))), rfl⟩
        · simp only [List.mem_singleton] at hdmeta
          refine ⟨RegOp.pushBlob bytes ZarfLayerMediaTypeBlob d0,
            List.mem_append_left _ (List.mem_append_left _ (List.mem_append_left _
              (List.mem_append_right _ (List.mem_singleton_self _)))), ?_⟩
          rw [hdmeta]
          exact rfl
      · by_cases h0 : signature.length = 0
        · obtain ⟨hsd, hst⟩ := hsig0 h0
          rw [hsd] at hdsig
          simp at hdsig
        · obtain ⟨dS, hpushS, hsd, hst⟩ := hsigpos (by omega)
          rw [hsd] at hdsig
          simp only [List.mem_singleton] at hdsig
          refine ⟨RegOp.pushBlob signature ZarfLayerMediaTypeBlob dS,
            List.mem_append_left _ (List.mem_append_left _
              (List.mem_append_right _ ?_)), ?_⟩
          · rw [hst]
            exact List.mem_singleton_self _
          · rw [hdsig]
            exact rfl

/-- Closed instance of C5 on the concrete test input. -/
theorem c5_push_before_manifest_witness :
    (create env0 r0 sig0).res = .ok () ∧
    ∃ pre m rootDesc post,
      (create env0 r0 sig0).trace = pre ++ RegOp.pushManifest m rootDesc :: post ∧
      ∀ d ∈ m.config :: m.layers, ∃ op ∈ pre, opPushes op d :=
  ⟨rfl, c5_push_before_manifest env0 r0 sig0 rfl⟩

/-- C6: in every successful run, the pushed root manifest has schema version 2,
its config field is the descriptor returned by pushing the config blob derived
from the bundle's metadata and build info, and its annotations are the
registry-UI annotation map derived from the bundle's metadata. -/
theorem c6_root_manifest_fields (env : Env) (r : RemoteBundle) (signature : List Nat)
    (h : (create env r signature).res = .ok ()) :
    ∃ m rootDesc,
      RegOp.pushManifest m rootDesc ∈ (create env r signature).trace ∧
      (∀ m2 d2, RegOp.pushManifest m2 d2 ∈ (create env r signature).trace →
        m2 = m) ∧
      m.schemaVersion = 2 ∧
      m.annots = env.manifestAnnots r.bundle.metadata ∧
      ∃ configDesc,
        env.pushManifestConfig r.bundle.metadata r.bundle.build = .ok configDesc ∧
        RegOp.pushConfig configDesc ∈ (create env r signature).trace ∧
        m.config = configDesc := by
  obtain ⟨ref, pkgDescs, trL, bytes, d0, sigDescs, sigTr, configDesc, idxOpt,
    rootDesc, h1, h2, h3, h4, h5, h6, h7, h8, h9, h10, h11⟩ :=
    create_ok_elim env r signature h
  have hshape := create_ok_shape env r signature ref pkgDescs trL bytes d0 sigDescs
    sigTr configDesc idxOpt rootDesc h1 h2 h3 h4 h5 h6 h7 h8 h9 h10 h11
  rw [hshape]
  refine ⟨mkRootManifest env r.bundle.metadata pkgDescs (withTitle d0 BundleYAML)
    sigDescs configDesc, rootDesc, ?_, ?_, rfl, rfl, configDesc, h8, ?_, rfl⟩
  · exact (mem_okTrace_iff env r ref trL bytes d0 sigTr configDesc _ rootDesc _ _).mpr
      (Or.inr (Or.inr (Or.inr (Or.inr (Or.inr (Or.inr (Or.inr (Or.inl rfl))))))))
  · intro m2 d2 hm
    rcases (mem_okTrace_iff env r ref trL bytes d0 sigTr configDesc _ rootDesc _
        _).mp hm with
      hx | hx | hx | hx | hx | hx | hx | hx | hx
    · simp at hx
    · simp at hx
    · exfalso
      have hmem2 : RegOp.pushManifest m2 d2 ∈
          (pushPackagesAux env (mkPlatform env) r.bundle.packages 0).2 := by
        rw [h4]
        exact hx
      rcases pushPackagesAux_ops env (mkPlatform env) r.bundle.packages 0 _ hmem2
        with ⟨u, heq⟩ | ⟨u, mm, heq⟩ | ⟨j, pk, d, heq⟩ <;> simp at heq
    · simp at hx
    · exfalso
      obtain ⟨data, mt, d, heq⟩ :=
        pushSignature_ops env signature (sigDescs, sigTr) h7 _ hx
      simp at heq
    · simp at hx
    · simp at hx
    · simp only [RegOp.pushManifest.injEq] at hx
      exact hx.1
    · simp at hx
  · exact (mem_okTrace_iff env r ref trL bytes d0 sigTr configDesc _ rootDesc _ _).mpr
      (Or.inr (Or.inr (Or.inr (Or.inr (Or.inr (Or.inl rfl))))))

/-- Closed instance of C6 on the concrete test input. -/
theorem c6_root_manifest_fields_witness :
    (create env0 r0 sig0).res = .ok () ∧
    ∃ m rootDesc,
      RegOp.pushManifest m rootDesc ∈ (create env0 r0 sig0).trace ∧
      (∀ m2 d2, RegOp.pushManifest m2 d2 ∈ (create env0 r0 sig0).trace →
        m2 = m) ∧
      m.schemaVersion = 2 ∧
      m.annots = env0.manifestAnnots r0.bundle.metadata ∧
      ∃ configDesc,
        env0.pushManifestConfig r0.bundle.metadata r0.bundle.build = .ok configDesc ∧
        RegOp.pushConfig configDesc ∈ (create env0 r0 sig0).trace ∧
        m.config = configDesc :=
  ⟨rfl, c6_root_manifest_fields env0 r0 sig0 rfl⟩

/-- C7: in every successful run, the bundle-metadata layer descriptor (at
position N in the pushed root manifest) carries exactly one annotation — the
OCI title annotation valued at the conventional bundle-metadata filename — and,
when a signature is pushed, the signature layer descriptor (at position N+1)
carries the OCI title annotation valued at the conventional signature
filename. -/
theorem c7_title_annotations (env : Env) (r : RemoteBundle) (signature : List Nat)
    (h : (create env r signature).res = .ok ()) :
    ∃ m rootDesc,
      RegOp.pushManifest m rootDesc ∈ (create env r signature).trace ∧
      (∃ metaDesc, m.layers[r.bundle.packages.length]? = some metaDesc ∧
        metaDesc.annots = [(titleAnnot, BundleYAML)]) ∧
      (signature.length > 0 →
        ∃ sigDesc, m.layers[r.bundle.packages.length + 1]? = some sigDesc ∧
          sigDesc.annots = [(titleAnnot, BundleYAMLSignature)]) := by
  obtain ⟨ref, pkgDescs, trL, bytes, d0, sigDescs, sigTr, configDesc, idxOpt,
    rootDesc, h1, h2, h3, h4, h5, h6, h7, h8, h9, h10, h11⟩ :=
    create_ok_elim env r signature h
  have hshape := create_ok_shape env r signature ref pkgDescs trL bytes d0 sigDescs
    sigTr configDesc idxOpt rootDesc h1 h2 h3 h4 h5 h6 h7 h8 h9 h10 h11
  obtain ⟨hlen, hidx, hmem⟩ := pushPackagesAux_ok env (mkPlatform env)
    r.bundle.packages 0 pkgDescs trL h4
  obtain ⟨hsig0, hsigpos⟩ := pushSignature_ok env signature sigDescs sigTr h7
  rw [hshape]
  refine ⟨mkRootManifest env r.bundle.metadata pkgDescs (withTitle d0 BundleYAML)
    sigDescs configDesc, rootDesc, ?_, ?_, ?_⟩
  · exact (mem_okTrace_iff env r ref trL bytes d0 sigTr configDesc _ rootDesc _ _).mpr
      (Or.inr (Or.inr (Or.inr (Or.inr (Or.inr (Or.inr (Or.inr (Or.inl rfl))))))))
  · refine ⟨withTitle d0 BundleYAML, ?_, rfl⟩
    show ((pkgDescs ++ [withTitle d0 BundleYAML]) ++
      sigDescs)[r.bundle.packages.length]? = some (withTitle d0 BundleYAML)
    rw [List.getElem?_append_left (by simp [hlen])]
    rw [List.getElem?_append_right (by omega)]
    simp [hlen]
  · intro hpos
    obtain ⟨dS, hpushS, hsd, hst⟩ := hsigpos hpos
    refine ⟨withTitle dS BundleYAMLSignature, ?_, rfl⟩
    show ((pkgDescs ++ [withTitle d0 BundleYAML]) ++
      sigDescs)[r.bundle.packages.length + 1]? = some (withTitle dS BundleYAMLSignature)
    rw [hsd, List.getElem?_append_right (by simp [hlen])]
    simp [hlen]

/-- Closed instance of C7 on the concrete test input. -/
theorem c7_title_annotations_witness :
    (create env0 r0 sig0).res = .ok () ∧
    ∃ m rootDesc,
      RegOp.pushManifest m rootDesc ∈ (create env0 r0 sig0).trace ∧
      (∃ metaDesc, m.layers[r0.bundle.packages.length]? = some metaDesc ∧
        metaDesc.annots = [(titleAnnot, BundleYAML)]) ∧
      (sig0.length > 0 →
        ∃ sigDesc, m.layers[r0.bundle.packages.length + 1]? = some sigDesc ∧
          sigDesc.annots = [(titleAnnot, BundleYAMLSignature)]) :=
  ⟨rfl, c7_title_annotations env0 r0 sig0 rfl⟩

/-- C4: the index upsert keeps the entry for the current platform unique —
when at most one entry matched before, exactly one matches afterwards, and it
is the stamped new root-manifest descriptor — replaces rather than appends when
a match exists, and preserves every entry of other platforms unchanged and in
order; and the index pushed by a successful run is exactly this upsert of the
fetched index with the new root-manifest descriptor. -/
theorem c4_index_upsert :
    (∀ (entries : List Descriptor) (arch : String) (d : Descriptor),
      entries.countP (archMatches arch) ≤ 1 →
        (updateIndexEntries (some entries) arch d).countP (archMatches arch) = 1 ∧
        stampPlatform d arch ∈ updateIndexEntries (some entries) arch d ∧
        (updateIndexEntries (some entries) arch d).filter
            (fun e => !archMatches arch e) =
          entries.filter (fun e => !archMatches arch e) ∧
        (entries.any (archMatches arch) = true →
          (updateIndexEntries (some entries) arch d).length = entries.length)) ∧
    (∀ (env : Env) (r : RemoteBundle) (signature : List Nat),
      (create env r signature).res = .ok () →
      ∃ ref idxOpt rootDesc,
        env.getIndex (env.repoRef ref) = .ok idxOpt ∧
        RegOp.getIndex (env.repoRef ref) ∈ (create env r signature).trace ∧
        RegOp.pushIndex
            (updateIndexEntries idxOpt r.bundle.metadata.architecture rootDesc) ∈
          (create env r signature).trace) := by
  constructor
  · intro entries arch d hcount
    exact ⟨updateIndexEntries_count entries arch d hcount,
      updateIndexEntries_mem entries arch d,
      updateIndexEntries_preserves entries arch d,
      updateIndexEntries_length entries arch d⟩
  · intro env r signature h
    obtain ⟨ref, pkgDescs, trL, bytes, d0, sigDescs, sigTr, configDesc, idxOpt,
      rootDesc, h1, h2, h3, h4, h5, h6, h7, h8, h9, h10, h11⟩ :=
      create_ok_elim env r signature h
    have hshape := create_ok_shape env r signature ref pkgDescs trL bytes d0 sigDescs
      sigTr configDesc idxOpt rootDesc h1 h2 h3 h4 h5 h6 h7 h8 h9 h10 h11
    rw [hshape]
    refine ⟨ref, idxOpt, rootDesc, h9, ?_, ?_⟩
    · exact (mem_okTrace_iff env r ref trL bytes d0 sigTr configDesc _ rootDesc _
        _).mpr (Or.inr (Or.inr (Or.inr (Or.inr (Or.inr (Or.inr (Or.inl rfl)))))))
    · exact (mem_okTrace_iff env r ref trL bytes d0 sigTr configDesc _ rootDesc _
        _).mpr (Or.inr (Or.inr (Or.inr (Or.inr (Or.inr (Or.inr (Or.inr
          (Or.inr rfl))))))))

/-- Closed instance of C4: upsert over an index holding an `arm64` entry and an
`amd64` entry, and the index push of the concrete successful run. -/
theorem c4_index_upsert_witness :
    ([entryArm, entryAmd].countP (archMatches "amd64") ≤ 1 ∧
      ((updateIndexEntries (some [entryArm, entryAmd]) "amd64"
          (testDesc "new")).countP (archMatches "amd64") = 1 ∧
        stampPlatform (testDesc "new") "amd64" ∈
          updateIndexEntries (some [entryArm, entryAmd]) "amd64" (testDesc "new") ∧
        (updateIndexEntries (some [entryArm, entryAmd]) "amd64"
            (testDesc "new")).filter (fun e => !archMatches "amd64" e) =
          [entryArm, entryAmd].filter (fun e => !archMatches "amd64" e) ∧
        ([entryArm, entryAmd].any (archMatches "amd64") = true →
          (updateIndexEntries (some [entryArm, entryAmd]) "amd64"
            (testDesc "new")).length = [entryArm, entryAmd].length))) ∧
    ((create env0 r0 sig0).res = .ok () ∧
      ∃ ref idxOpt rootDesc,
        env0.getIndex (env0.repoRef ref) = .ok idxOpt ∧
        RegOp.getIndex (env0.repoRef ref) ∈ (create env0 r0 sig0).trace ∧
        RegOp.pushIndex
            (updateIndexEntries idxOpt r0.bundle.metadata.architecture rootDesc) ∈
          (create env0 r0 sig0).trace) :=
  ⟨⟨by decide,
    c4_index_upsert.1 [entryArm, entryAmd] "amd64" (testDesc "new") (by decide)⟩,
   ⟨rfl, c4_index_upsert.2 env0 r0 sig0 rfl⟩⟩
